import Mathlib

/-!
Verification of the classification decision engine of the agme-case-parser
repository: the keyword rule categorizer (`src/case_parser/patterns/categorization.py`),
the confidence-gated hybrid classifier (`src/case_parser/ml/hybrid.py`), and the
human-review / retrain workbench (`ml_training/workbench.py`).

Python strings are modelled as Lean `String` (the data is ASCII), Python float
confidences as `ℚ`, Python `None`/`NaN` cells as `Option`, raised exceptions as
`Except`, and pandas DataFrames as lists of row records.  Module-level
configuration constants that the source closes over (the `PROCEDURE_RULES`
table) are passed as explicit parameters, instantiated with the table from
`src/case_parser/models.py`.
-/

/-- Python's substring test `needle in haystack` on character lists:
true iff `needle` occurs contiguously in `haystack` (the empty needle
always occurs). -/
def pySubstr : List Char → List Char → Bool
  | n, [] => n.isEmpty
  | n, c :: t => n.isPrefixOf (c :: t) || pySubstr n t

/-- Python's `needle in haystack` on strings. -/
def pyIn (needle haystack : String) : Bool :=
  pySubstr needle.toList haystack.toList

/-- ASCII uppercase of one character (the corpus is ASCII, so this models
Python's `str.upper` / Lean's locale-free `Char.toUpper`). -/
def upChar (c : Char) : Char :=
  if 'a' ≤ c ∧ c ≤ 'z' then Char.ofNat (c.toNat - 32) else c

/-- Python's `str.upper()`. -/
def pyUpper (s : String) : String := String.mk (s.data.map upChar)

/-- Python's `str.strip()`: drop leading and trailing whitespace. -/
def pyStrip (s : String) : String :=
  String.mk
    (((s.data.dropWhile Char.isWhitespace).reverse.dropWhile Char.isWhitespace).reverse)

/-- Python's `str.startswith(pre)`. -/
def pyStartsWith (s pre : String) : Bool := pre.data.isPrefixOf s.data

/-- Python's `s[n:]` on (ASCII) text: drop the first `n` characters. -/
def pyDrop (s : String) (n : Nat) : String := String.mk (s.data.drop n)

/-- Helper for `pySplitWs`: split on whitespace runs, accumulator holds the
current word reversed. -/
def splitWsAux : List Char → List Char → List String
  | [], acc => if acc.isEmpty then [] else [String.mk acc.reverse]
  | c :: t, acc =>
    if c.isWhitespace then
      if acc.isEmpty then splitWsAux t [] else String.mk acc.reverse :: splitWsAux t []
    else splitWsAux t (c :: acc)

/-- Python's `str.split()` with no argument: split on whitespace runs,
discarding empty fields. -/
def pySplitWs (s : String) : List String := splitWsAux s.data []

/-- Python's `str.isdigit()` for ASCII text. -/
def pyIsDigit (s : String) : Bool := !s.data.isEmpty && s.data.all Char.isDigit

/-- Python's `int(s)` on a digit-only string. -/
def pyInt (s : String) : Nat :=
  s.data.foldl (fun acc c => acc * 10 + (c.toNat - 48)) 0

/-- Modelled from the spec: the fine 11-leaf `ProcedureCategory` enum.  The
file defining it is missing from `src/` (`src/case_parser/domain.py` as
provided only holds the historical coarse 6-value snapshot), while
`patterns/categorization.py`, `processor.py` and `ml_training/utils.py` all
reference these members.  Member names follow those usages; see spec §3. -/
inductive ProcedureCategory where
  | CARDIAC_WITH_CPB
  | CARDIAC_WITHOUT_CPB
  | MAJOR_VESSELS_ENDOVASCULAR
  | MAJOR_VESSELS_OPEN
  | INTRACEREBRAL_ENDOVASCULAR
  | INTRACEREBRAL_VASCULAR_OPEN
  | INTRACEREBRAL_NONVASCULAR_OPEN
  | CESAREAN
  | VAGINAL_DELIVERY
  | INTRATHORACIC_NON_CARDIAC
  | OTHER
  deriving DecidableEq, Repr

/-- Modelled from the spec: the stable string label of each leaf category
(spec §3; `"Other (procedure cat)"`, `"Intrathoracic non-cardiac"` and
`"Cesarean del"` are attested literally in the sources under `src/`). -/
def ProcedureCategory.value : ProcedureCategory → String
  | .CARDIAC_WITH_CPB => "Cardiac with CPB"
  | .CARDIAC_WITHOUT_CPB => "Cardiac without CPB"
  | .MAJOR_VESSELS_ENDOVASCULAR => "Procedures Major Vessels - Endovascular"
  | .MAJOR_VESSELS_OPEN => "Procedures Major Vessels - Open"
  | .INTRACEREBRAL_ENDOVASCULAR => "Intracerebral - Endovascular"
  | .INTRACEREBRAL_VASCULAR_OPEN => "Intracerebral - Vascular Open"
  | .INTRACEREBRAL_NONVASCULAR_OPEN => "Intracerebral - Nonvascular Open"
  | .CESAREAN => "Cesarean del"
  | .VAGINAL_DELIVERY => "Vaginal delivery"
  | .INTRATHORACIC_NON_CARDIAC => "Intrathoracic non-cardiac"
  | .OTHER => "Other (procedure cat)"

/-- The canonical category order of `ml_training/utils.py` (`CATEGORIES`). -/
def allCategories : List ProcedureCategory :=
  [.CARDIAC_WITH_CPB, .CARDIAC_WITHOUT_CPB, .MAJOR_VESSELS_ENDOVASCULAR,
   .MAJOR_VESSELS_OPEN, .INTRACEREBRAL_ENDOVASCULAR, .INTRACEREBRAL_VASCULAR_OPEN,
   .INTRACEREBRAL_NONVASCULAR_OPEN, .CESAREAN, .VAGINAL_DELIVERY,
   .INTRATHORACIC_NON_CARDIAC, .OTHER]

/-- The Python enum constructor call `ProcedureCategory(s)`: `some` member
with that value string, `none` when the call would raise `ValueError`. -/
def ProcedureCategory.fromString (s : String) : Option ProcedureCategory :=
  allCategories.find? (fun c => c.value == s)

/-- The Python `ProcedureCategory.__members__` lookup by member name, as used
by `normalize_category_label` in `ml_training/utils.py`. -/
def memberValue : String → Option String
  | "CARDIAC_WITH_CPB" => some ProcedureCategory.CARDIAC_WITH_CPB.value
  | "CARDIAC_WITHOUT_CPB" => some ProcedureCategory.CARDIAC_WITHOUT_CPB.value
  | "MAJOR_VESSELS_ENDOVASCULAR" => some ProcedureCategory.MAJOR_VESSELS_ENDOVASCULAR.value
  | "MAJOR_VESSELS_OPEN" => some ProcedureCategory.MAJOR_VESSELS_OPEN.value
  | "INTRACEREBRAL_ENDOVASCULAR" => some ProcedureCategory.INTRACEREBRAL_ENDOVASCULAR.value
  | "INTRACEREBRAL_VASCULAR_OPEN" => some ProcedureCategory.INTRACEREBRAL_VASCULAR_OPEN.value
  | "INTRACEREBRAL_NONVASCULAR_OPEN" => some ProcedureCategory.INTRACEREBRAL_NONVASCULAR_OPEN.value
  | "CESAREAN" => some ProcedureCategory.CESAREAN.value
  | "VAGINAL_DELIVERY" => some ProcedureCategory.VAGINAL_DELIVERY.value
  | "INTRATHORACIC_NON_CARDIAC" => some ProcedureCategory.INTRATHORACIC_NON_CARDIAC.value
  | "OTHER" => some ProcedureCategory.OTHER.value
  | _ => none

/-- Modelled from the spec: `detect_approach` of the missing
`patterns/approach_patterns.py` (spec §4.2 ApproachDetector): endovascular
keywords are checked first, then open-surgery keywords; returns
`"endovascular"`, `"open"`, or `""` when neither set matches.  No claim
depends on the exact keyword sets. -/
def detect_approach (procedure_text : String) : String :=
  if ["PERCUTANEOUS", "CATHETER", "ENDOVASCULAR", "STENT"].any
      (fun kw => pyIn kw procedure_text) then "endovascular"
  else if ["OPEN", "CRANIOTOMY"].any (fun kw => pyIn kw procedure_text) then "open"
  else ""

/-- Modelled from the spec: `detect_intracerebral_pathology` of the missing
`patterns/approach_patterns.py` (spec §4.2 PathologyDetector): returns
`"vascular"`, `"nonvascular"`, or `""` when unknown.  No claim depends on the
exact keyword sets. -/
def detect_intracerebral_pathology (procedure_text : String) : String :=
  if ["ANEURYSM", "AVM", "HEMORRHAGE", "VASCULAR"].any
      (fun kw => pyIn kw procedure_text) then "vascular"
  else if ["TUMOR", "MASS", "SHUNT"].any (fun kw => pyIn kw procedure_text) then "nonvascular"
  else ""

/-- `ProcedureRule` of `src/case_parser/models.py`: ordered keyword rule with
exclusions. -/
structure ProcedureRule where
  keywords : List String
  category : String
  exclude_keywords : List String := []
  deriving DecidableEq, Repr

/-- The priority-ordered rule table `PROCEDURE_RULES` of
`src/case_parser/models.py`.  (`patterns/categorization.py` imports the table
from the missing `patterns/procedure_patterns.py`; the list in `models.py` is
the same-named table carrying exactly the category strings that
`_apply_rule_category` dispatches on.) -/
def PROCEDURE_RULES : List ProcedureRule :=
  [⟨["CARDIAC"], "Cardiac", []⟩,
   ⟨["NEURO"], "Intracerebral", []⟩,
   ⟨["THOR"], "Intrathoracic non-cardiac", ["CARD"]⟩,
   ⟨["VASC"], "Procedures Major Vessels", []⟩,
   ⟨["TRANSPLANT"], "Other (procedure cat)", []⟩]

/-- The no-CPB keyword tuple of `categorize_cardiac`. -/
def no_cpb_keywords : List String :=
  ["TAVR", "TAVI", "TRANSCATHETER", "OFF-PUMP", "OFF PUMP", "OPCAB",
   "BEATING HEART", "REMOVAL VENTRICULAR ASSIST DEVICE", "REMOVAL IMPLANT",
   "PERCUTANEOUS"]

/-- The CPB keyword tuple of `categorize_cardiac`. -/
def cpb_keywords : List String :=
  ["BYPASS", "CPB", "PUMP", "ON-PUMP", "ON PUMP", "CARDIOPULMONARY BYPASS"]

/-- `categorize_cardiac` of `patterns/categorization.py`: no-CPB keywords take
precedence; otherwise CPB keywords; default is with-CPB. -/
def categorize_cardiac (procedure_text : String) : ProcedureCategory :=
  let has_no_cpb := no_cpb_keywords.any (fun kw => pyIn kw procedure_text)
  let has_cpb := cpb_keywords.any (fun kw => pyIn kw procedure_text)
  if has_no_cpb then .CARDIAC_WITHOUT_CPB
  else if has_cpb then .CARDIAC_WITH_CPB
  else .CARDIAC_WITH_CPB

/-- `categorize_vascular` of `patterns/categorization.py`. -/
def categorize_vascular (procedure_text : String) : ProcedureCategory :=
  if detect_approach procedure_text == "endovascular" then .MAJOR_VESSELS_ENDOVASCULAR
  else .MAJOR_VESSELS_OPEN

/-- `categorize_intracerebral` of `patterns/categorization.py`. -/
def categorize_intracerebral (procedure_text : String) : ProcedureCategory :=
  if detect_approach procedure_text == "endovascular" then .INTRACEREBRAL_ENDOVASCULAR
  else if detect_approach procedure_text == "open" then
    if detect_intracerebral_pathology procedure_text == "vascular" then
      .INTRACEREBRAL_VASCULAR_OPEN
    else if detect_intracerebral_pathology procedure_text == "nonvascular" then
      .INTRACEREBRAL_NONVASCULAR_OPEN
    else .INTRACEREBRAL_VASCULAR_OPEN
  else .INTRACEREBRAL_NONVASCULAR_OPEN

/-- `categorize_obgyn` of `patterns/categorization.py`. -/
def categorize_obgyn (procedure_text : String) : ProcedureCategory :=
  if ["CESAREAN", "C-SECTION", "C SECTION"].any (fun kw => pyIn kw procedure_text) then
    .CESAREAN
  else if ["LABOR EPIDURAL", "VAGINAL", "DELIVERY", "LABOR"].any
      (fun kw => pyIn kw procedure_text) then .VAGINAL_DELIVERY
  else .OTHER

/-- `_apply_rule_category` of `patterns/categorization.py`: dispatch a rule's
category string to the surgery-specific resolver. -/
def applyRuleCategory (rule_category : String) (procedure_text : String) : ProcedureCategory :=
  if rule_category == "Cardiac" then categorize_cardiac procedure_text
  else if rule_category == "Procedures Major Vessels" then categorize_vascular procedure_text
  else if rule_category == "Intracerebral" then categorize_intracerebral procedure_text
  else if rule_category == "Intrathoracic non-cardiac" then .INTRATHORACIC_NON_CARDIAC
  else .OTHER

/-- The inner rule loop shared by `_match_services_to_categories` (keywords
against the upper-cased service, exclusions against service or procedure
text) and `_fallback_categories_from_text` (both against the procedure text):
category of the first matching, non-excluded rule. -/
def findRuleCategory (rules : List ProcedureRule) (text procedure_text : String) :
    Option ProcedureCategory :=
  match rules with
  | [] => none
  | r :: rest =>
    if r.keywords.any (fun kw => pyIn kw text) then
      if r.exclude_keywords.any (fun ex => pyIn ex text || pyIn ex procedure_text) then
        findRuleCategory rest text procedure_text
      else some (applyRuleCategory r.category procedure_text)
    else findRuleCategory rest text procedure_text

/-- `_match_services_to_categories` of `patterns/categorization.py`: per
service, first unexcluded matching rule contributes its resolved category
(deduplicated, order-preserving); a service containing GYN/OB/OBSTET
additionally contributes the OB/GYN resolver's category. -/
def matchServicesToCategories (rules : List ProcedureRule) (services : List String)
    (procedure_text : String) : List ProcedureCategory :=
  services.foldl
    (fun cats service =>
      let su := pyUpper service
      let cats :=
        match findRuleCategory rules su procedure_text with
        | some c => if c ∈ cats then cats else cats ++ [c]
        | none => cats
      if ["GYN", "OB", "OBSTET"].any (fun kw => pyIn kw su) then
        let oc := categorize_obgyn procedure_text
        if oc ∈ cats then cats else cats ++ [oc]
      else cats)
    []

/-- `_fallback_categories_from_text` of `patterns/categorization.py`. -/
def fallbackCategoriesFromText (rules : List ProcedureRule) (procedure_text : String) :
    List ProcedureCategory :=
  match findRuleCategory rules procedure_text procedure_text with
  | some c => [c]
  | none =>
    let oc := categorize_obgyn procedure_text
    if oc ≠ ProcedureCategory.OTHER then [oc] else []

/-- `"" if pd.isna(procedure) else str(procedure).upper()`; `none` models a
null/NaN procedure cell. -/
def procedureTextOf (procedure : Option String) : String :=
  match procedure with
  | none => ""
  | some s => pyUpper s

/-- The category list accumulated by `categorize_procedure` before the
labor-epidural override: service matches, else the text fallback when the
procedure text is non-empty. -/
def accumulatedCategories (rules : List ProcedureRule) (procedure_text : String)
    (services : List String) : List ProcedureCategory :=
  let cats := matchServicesToCategories rules services procedure_text
  if cats = [] ∧ procedure_text ≠ "" then fallbackCategoriesFromText rules procedure_text
  else cats

/-- The ambiguity warning f-string of `categorize_procedure` (Python repr
formatting of the lists abstracted by `toString`). -/
def ambiguityWarning (services : List String) (cats : List ProcedureCategory) : String :=
  "Multiple procedure categories detected for services " ++ toString services ++
    ": " ++ toString (cats.map (fun c => c.value)) ++ ". Using first: " ++
    (cats.headD ProcedureCategory.OTHER).value

/-- `categorize_procedure` of `patterns/categorization.py`, with the rule
table as an explicit parameter (a module-level constant in the source). -/
def categorize_procedure (rules : List ProcedureRule) (procedure : Option String)
    (services : List String) : ProcedureCategory × List String :=
  let procedure_text := procedureTextOf procedure
  let cats0 := accumulatedCategories rules procedure_text services
  let cats :=
    if (cats0 = [] ∨ cats0 = [ProcedureCategory.OTHER]) ∧
        pyIn "LABOR EPIDURAL" procedure_text then
      [ProcedureCategory.VAGINAL_DELIVERY]
    else cats0
  match cats with
  | [] => (ProcedureCategory.OTHER, [])
  | [c] => (c, [])
  | c :: _ :: _ => (c, [ambiguityWarning services cats])

/-! ## Hybrid classifier (`src/case_parser/ml/hybrid.py`) -/

/-- `ClassificationResult` of `ml/hybrid.py` (confidences as `ℚ`). -/
structure ClassificationResult where
  category : ProcedureCategory
  method : String
  confidence : ℚ
  alternative : Option ProcedureCategory
  warnings : List String
  deriving DecidableEq, Repr

/-- The observable output of `MLPredictor` for one input text: the predicted
label string and the max-probability confidence.  `HybridClassifier.classify`
consumes nothing else of the predictor. -/
structure MLOutput where
  label : String
  conf : ℚ
  deriving DecidableEq, Repr

/-- The inline high-confidence override bound `0.85` of
`HybridClassifier.classify`. -/
def HIGH_CONFIDENCE_BOUND : ℚ := mkRat 85 100

/-- The default `ml_threshold` of `HybridClassifier.__init__`. -/
def DEFAULT_ML_THRESHOLD : ℚ := mkRat 7 10

/-- `0.8 if rule_warnings else 1.0`, the rules-mode confidence. -/
def rulesConfidence (rule_warnings : List String) : ℚ :=
  if rule_warnings.isEmpty then 1 else mkRat 4 5

/-- The `ml_override` disagreement warning f-string (numeric `:.2f`
formatting abstracted by `toString`). -/
def mlOverrideWarning (conf : ℚ) (rule_category : ProcedureCategory) : String :=
  "ML override (conf=" ++ toString conf ++ "): rules suggested " ++ rule_category.value

/-- The `rules_flagged` disagreement warning f-string (numeric `:.2f`
formatting abstracted by `toString`). -/
def mlSuggestsWarning (ml_category : ProcedureCategory) (conf : ℚ) : String :=
  "ML suggests " ++ ml_category.value ++ " (conf=" ++ toString conf ++ ")"

/-- The invalid-label warning f-string of `HybridClassifier.classify`. -/
def invalidCategoryWarning (ml_category_str : String) : String :=
  "ML returned invalid category: " ++ ml_category_str

/-- `HybridClassifier.classify` of `ml/hybrid.py`.  The rule table and the
predictor's observable output are explicit parameters (`ml_predictor = none`
models rules-only mode); `services or []` is the caller-supplied list. -/
def classify (rules : List ProcedureRule) (ml_predictor : Option MLOutput)
    (ml_threshold : ℚ) (procedure_text : String) (services : List String) :
    ClassificationResult :=
  let rp := categorize_procedure rules (some procedure_text) services
  let rule_category := rp.1
  let rule_warnings := rp.2
  match ml_predictor with
  | none =>
    ⟨rule_category, "rules", rulesConfidence rule_warnings, none, rule_warnings⟩
  | some ml =>
    let ml_category_str := pyStrip ml.label
    let ml_confidence := ml.conf
    match ProcedureCategory.fromString ml_category_str with
    | none =>
      ⟨rule_category, "rules", rulesConfidence rule_warnings, none,
        rule_warnings ++ [invalidCategoryWarning ml_category_str]⟩
    | some ml_category =>
      if HIGH_CONFIDENCE_BOUND ≤ ml_confidence then
        ⟨ml_category, "ml_override", ml_confidence,
          if ml_category ≠ rule_category then some rule_category else none,
          if ml_category ≠ rule_category then
            rule_warnings ++ [mlOverrideWarning ml_confidence rule_category]
          else rule_warnings⟩
      else if ml_threshold ≤ ml_confidence then
        if ml_category ≠ rule_category then
          ⟨rule_category, "rules_flagged", rulesConfidence rule_warnings,
            some ml_category,
            rule_warnings ++ [mlSuggestsWarning ml_category ml_confidence]⟩
        else
          ⟨rule_category, "rules_ml_agree", mkRat 9 10, none, rule_warnings⟩
      else
        ⟨rule_category, "rules", rulesConfidence rule_warnings, none, rule_warnings⟩

/-! ## Review workbench and retrain merge (`ml_training/workbench.py`) -/

/-- `drop_duplicates(subset=[key], keep="last")` of pandas, as used on
row lists: keep each row that has no later row with the same key,
preserving order. -/
def dedupKeepLast {α : Type} (key : α → String) : List α → List α
  | [] => []
  | a :: l => if ∃ b ∈ l, key b = key a then dedupKeepLast key l else a :: dedupKeepLast key l

/-- `OVERRIDE_CORRECTION_MULTIPLIER` of `ml_training/workbench.py`. -/
def OVERRIDE_CORRECTION_MULTIPLIER : Nat := 3

/-- A dataset row after `_upsert_label_column` and `_add_procedure_key`:
normalized procedure key, normalized label, and the remaining cells. -/
structure DataRow where
  key : String
  label : String
  rest : List String
  deriving DecidableEq, Repr

/-- Python dict lookup on the override map (keys are unique after
`_load_override_map` dedups them). -/
def overrideLookup (om : List (String × String)) (k : String) : Option String :=
  match om with
  | [] => none
  | (k₁, v) :: rest => if k₁ = k then some v else overrideLookup rest k

/-- One row's relabel-and-flag step of `_merge_override_frames`: replace the
label by the override when present; the flag records a true correction
(override differs from the prior label). -/
def relabelRow (om : List (String × String)) (r : DataRow) : DataRow × Bool :=
  match overrideLookup om r.key with
  | some v => ({ r with label := v }, decide (r.label ≠ v))
  | none => (r, false)

/-- The relabeled `seen` frame with its `_is_override_correction` flags. -/
def seenRelabeled (om : List (String × String)) (seen : List DataRow) :
    List (DataRow × Bool) :=
  seen.map (relabelRow om)

/-- The promoted (`reviewed_unseen_df`) rows: unseen rows whose key is
overridden, relabeled and flagged. -/
def promotedUnseen (om : List (String × String)) (unseen : List DataRow) :
    List (DataRow × Bool) :=
  (unseen.filter (fun r => (overrideLookup om r.key).isSome)).map (relabelRow om)

/-- `remaining_eval_df`: unseen rows not overridden. -/
def remainingEval (om : List (String × String)) (unseen : List DataRow) :
    List DataRow :=
  unseen.filter (fun r => (overrideLookup om r.key).isNone)

/-- The concatenated training pool before deduplication. -/
def mergedPool (om : List (String × String)) (seen unseen : List DataRow) :
    List (DataRow × Bool) :=
  seenRelabeled om seen ++ promotedUnseen om unseen

/-- The training pool after `drop_duplicates(subset=["_procedure_key"],
keep="last")`. -/
def dedupedPool (om : List (String × String)) (seen unseen : List DataRow) :
    List (DataRow × Bool) :=
  dedupKeepLast (fun rb => rb.1.key) (mergedPool om seen unseen)

/-- The correction upweighting step of `_merge_override_frames`: append
`multiplier − 1` copies of the flagged rows when there are any and the
multiplier exceeds 1. -/
def upweightCorrections (multiplier : Nat) (dd : List (DataRow × Bool)) :
    List (DataRow × Bool) :=
  let corrected := dd.filter (fun rb => rb.2)
  if 0 < corrected.length ∧ 1 < multiplier then
    dd ++ (List.replicate (multiplier - 1) corrected).flatten
  else dd

/-- `_merge_override_frames` of `ml_training/workbench.py`: returns
`(retrain_df, remaining_eval_df, seen_overrides_applied, unseen_promoted,
corrected_rows, rows_added_by_weighting)`. -/
def mergeOverrideFrames (om : List (String × String)) (seen unseen : List DataRow) :
    List DataRow × List DataRow × Nat × Nat × Nat × Nat :=
  let dd := dedupedPool om seen unseen
  let corrected_rows := (dd.filter (fun rb => rb.2)).length
  let retrain := upweightCorrections OVERRIDE_CORRECTION_MULTIPLIER dd
  let rows_added :=
    if 0 < corrected_rows ∧ 1 < OVERRIDE_CORRECTION_MULTIPLIER then
      corrected_rows * (OVERRIDE_CORRECTION_MULTIPLIER - 1)
    else 0
  (retrain.map (fun rb => rb.1), remainingEval om unseen,
    (seen.filter (fun r => (overrideLookup om r.key).isSome)).length,
    (unseen.filter (fun r => (overrideLookup om r.key).isSome)).length,
    corrected_rows, rows_added)

/-- `normalize_category_label` of `ml_training/utils.py` on a string input:
strip, then collapse a `ProcedureCategory.MEMBER` spelling to the member's
value when the member exists. -/
def normalizeCategoryLabel (category : String) : String :=
  let normalized := pyStrip category
  if pyStartsWith normalized "ProcedureCategory." then
    match memberValue (pyDrop normalized 18) with
    | some v => v
    | none => normalized
  else normalized

/-- `_normalize_procedure_key` of `ml_training/workbench.py`: `None` (and a
missing cell) maps to `""`; otherwise whitespace-collapsed, upper-cased. -/
def normalizeProcedureKey (value : Option String) : String :=
  match value with
  | none => ""
  | some s => pyUpper (String.intercalate " " (pySplitWs (pyStrip s)))

/-- The review-labels CSV: its column names, and per row the `procedure` and
`human_category` cells (`none` models a null/NaN cell). -/
structure ReviewCSV where
  columns : List String
  rows : List (Option String × Option String)
  deriving DecidableEq, Repr

/-- `_load_override_map` of `ml_training/workbench.py`: `ValueError` when a
required column is missing, else the keyed, normalized, key-deduplicated
(keep-last) override association list. -/
def loadOverrideMap (t : ReviewCSV) : Except String (List (String × String)) :=
  if "procedure" ∈ t.columns ∧ "human_category" ∈ t.columns then
    let cleaned := t.rows.map (fun pr =>
      (normalizeProcedureKey pr.1,
       normalizeCategoryLabel (pr.2.getD "Other (procedure cat)")))
    let cleaned := cleaned.filter (fun kv => kv.1 ≠ "")
    .ok (dedupKeepLast (fun kv => kv.1) cleaned)
  else .error "Review labels must include columns: procedure, human_category"

/-- A raw seen/unseen CSV row before label upsert and key addition. -/
structure RawRow where
  procedure : Option String
  label : Option String
  rest : List String
  deriving DecidableEq, Repr

/-- `_upsert_label_column` (fill and normalize the label) followed by
`_add_procedure_key` on one row. -/
def toDataRow (r : RawRow) : DataRow :=
  { key := normalizeProcedureKey r.procedure,
    label := normalizeCategoryLabel (r.label.getD "Other (procedure cat)"),
    rest := r.rest }

/-- The file-system facts `_prepare_override_retrain_datasets` consults:
input files (`none` = missing), output existence flags, and the `--force`
flag. -/
structure RetrainEnv where
  seenFile : Option (List RawRow)
  unseenFile : Option (List RawRow)
  reviewFile : Option ReviewCSV
  retrainOutExists : Bool
  evalOutExists : Bool
  force : Bool
  deriving DecidableEq, Repr

/-- `_prepare_override_retrain_datasets` of `ml_training/workbench.py`
(validation plus merge; both dataset writes happen only on the `.ok` path, so
`.error` models raising before any output is written). -/
def prepareOverrideRetrainDatasets (env : RetrainEnv) :
    Except String (List DataRow × List DataRow × Nat × Nat × Nat × Nat) :=
  match env.seenFile, env.unseenFile, env.reviewFile with
  | some seenRows, some unseenRows, some reviewT =>
    if ¬env.force ∧ (env.retrainOutExists ∨ env.evalOutExists) then
      .error "Output file(s) already exist. Use --force to overwrite."
    else
      match loadOverrideMap reviewT with
      | .error e => .error e
      | .ok om =>
        if om = [] then .error "No valid overrides found in review labels file."
        else .ok (mergeOverrideFrames om (seenRows.map toDataRow) (unseenRows.map toDataRow))
  | _, _, _ => .error "Missing retrain inputs."

/-- `CATEGORIES` of `ml_training/utils.py`. -/
def CATEGORIES : List String := allCategories.map (fun c => c.value)

/-- `ReviewCase` of `ml_training/workbench.py`. -/
structure ReviewCase where
  index : Nat
  procedure : String
  ml_prediction : String
  ml_confidence : ℚ
  rule_prediction : String
  disagreement : Bool
  top_predictions : List (String × ℚ)
  deriving DecidableEq, Repr

/-- `_recommended_category`. -/
def recommendedCategory (c : ReviewCase) : String :=
  if c.disagreement then c.rule_prediction else c.ml_prediction

/-- A staged review label record (`_label_record`). -/
structure LabelRecord where
  procedure : String
  human_category : String
  rule_category : String
  ml_category : String
  confidence : Nat
  notes : String
  source_case_id : Nat
  deriving DecidableEq, Repr

/-- `_label_record` of `ml_training/workbench.py`. -/
def labelRecord (c : ReviewCase) (selected : String) : LabelRecord :=
  ⟨c.procedure, normalizeCategoryLabel selected, c.rule_prediction,
    c.ml_prediction, 3, "", c.index⟩

/-- `_resolve_selected_category` of `ml_training/workbench.py`. -/
def resolveSelectedCategory (choice : String) (c : ReviewCase)
    (recommended : String) : Option String :=
  if choice = "a" ∨ choice = " " then some recommended
  else if choice = "m" ∨ choice = "j" then some c.ml_prediction
  else if choice = "r" ∨ choice = "f" then some c.rule_prediction
  else if choice = "o" then
    some (if "Other (procedure cat)" ∈ CATEGORIES then "Other (procedure cat)"
      else CATEGORIES.getLastD "Other (procedure cat)")
  else if pyIsDigit choice then
    let idx := pyInt choice
    if 1 ≤ idx ∧ idx ≤ CATEGORIES.length then some (CATEGORIES.getD (idx - 1) "")
    else none
  else none

/-- The session state touched by `_apply_review_choice`: the staged-label
buffer and its output file, the reviewed-index set and its progress file, and
the session counters. -/
structure SessionState where
  staged : List LabelRecord
  outFile : Option (List LabelRecord)
  reviewedIndices : List Nat
  progressFile : Option (List Nat)
  reviewedThisSession : Nat
  acceptedRecommended : Nat
  skipped : Nat
  deriving DecidableEq, Repr

/-- A fresh session against a not-yet-existing output file. -/
def freshSession : SessionState := ⟨[], none, [], none, 0, 0, 0⟩

/-- `_save_review_labels`: append the staged records to the existing file
content and deduplicate by procedure text keeping the last occurrence. -/
def saveReviewLabels (existing : Option (List LabelRecord))
    (session_labels : List LabelRecord) : List LabelRecord :=
  dedupKeepLast (fun r => r.procedure) (existing.getD [] ++ session_labels)

/-- `_mark_reviewed`: bump the session counter, add the case index to the
reviewed set, and persist the progress file immediately (`sorted(...)`). -/
def markReviewed (c : ReviewCase) (st : SessionState) : SessionState :=
  let reviewed := List.insert c.index st.reviewedIndices
  { st with
    reviewedThisSession := st.reviewedThisSession + 1,
    reviewedIndices := reviewed,
    progressFile := some (reviewed.insertionSort (· ≤ ·)) }

/-- `_autosave_if_needed`: flush the staged labels to the output file when
the buffer is non-empty and its size is a multiple of 10. -/
def autosaveIfNeeded (st : SessionState) : SessionState × Bool :=
  if st.staged.isEmpty then (st, false)
  else if st.staged.length % 10 ≠ 0 then (st, false)
  else
    ({ st with
        outFile := some (saveReviewLabels st.outFile st.staged),
        staged := [] }, true)

/-- `_apply_review_choice` of `ml_training/workbench.py`: returns the new
state, whether the choice was applied, and the status message. -/
def applyReviewChoice (choice : String) (c : ReviewCase) (st : SessionState) :
    SessionState × Bool × String :=
  if choice = "s" then
    (markReviewed c { st with skipped := st.skipped + 1 }, true,
      "Skipped case id " ++ toString c.index ++ ".")
  else
    let recommended := recommendedCategory c
    match resolveSelectedCategory choice c recommended with
    | none => (st, false, "Invalid choice.")
    | some selected =>
      let st₁ :=
        if choice = "a" ∨ choice = " " then
          { st with acceptedRecommended := st.acceptedRecommended + 1 }
        else st
      let st₂ := { st₁ with staged := st₁.staged ++ [labelRecord c selected] }
      let st₃ := markReviewed c st₂
      let as := autosaveIfNeeded st₃
      if as.2 then (as.1, true, "Autosaved 10 decisions.")
      else (as.1, true, "Recorded: " ++ selected)

/-- Run a sequence of (choice, case) review steps. -/
def runChoices (steps : List (String × ReviewCase)) (st : SessionState) :
    SessionState :=
  steps.foldl (fun s p => (applyReviewChoice p.1 p.2 s).1) st

/-- The label record a non-skip applied step stages. -/
def stepRecord (p : String × ReviewCase) : LabelRecord :=
  labelRecord p.2 ((resolveSelectedCategory p.1 p.2 (recommendedCategory p.2)).getD "")

/-- A step that applies a label: not a skip, and its choice resolves to a
category. -/
def appliesNonSkip (p : String × ReviewCase) : Prop :=
  p.1 ≠ "s" ∧ (resolveSelectedCategory p.1 p.2 (recommendedCategory p.2)).isSome = true

instance (p : String × ReviewCase) : Decidable (appliesNonSkip p) :=
  inferInstanceAs (Decidable (_ ∧ _))

/-! ## Claim theorems -/

/-- C1: for every `(procedure, services)` input — the procedure any string or
null/NaN, the services any string list — `categorize_procedure` returns
normally (the embedding is a total function) with a category among the 11
taxonomy leaves, and when no rule, OB/GYN, or labor-epidural evidence was
accumulated it returns `Other` with no warnings, never null and never an
exception.  Stated for every rule table. -/
theorem categorize_procedure_total_and_defaults_to_other
    (rules : List ProcedureRule) (procedure : Option String) (services : List String) :
    (categorize_procedure rules procedure services).1 ∈ allCategories
    ∧ (accumulatedCategories rules (procedureTextOf procedure) services = [] →
        pyIn "LABOR EPIDURAL" (procedureTextOf procedure) = false →
        categorize_procedure rules procedure services = (ProcedureCategory.OTHER, [])) := by
  constructor
  · cases h : (categorize_procedure rules procedure services).1 <;> simp [allCategories]
  · intro h₁ h₂
    simp [categorize_procedure, h₁, h₂]

/-- Witness for C1 at a concrete no-evidence input. -/
theorem categorize_procedure_total_and_defaults_to_other_witness :
    accumulatedCategories PROCEDURE_RULES (procedureTextOf (some "XYZ")) [] = []
    ∧ categorize_procedure PROCEDURE_RULES (some "XYZ") [] = (ProcedureCategory.OTHER, []) :=
  ⟨by decide,
    (categorize_procedure_total_and_defaults_to_other PROCEDURE_RULES (some "XYZ") []).2
      (by decide) (by decide)⟩

/-- C8: for every upper-cased procedure text, `categorize_cardiac` returns
`CardiacWithoutCPB` whenever a no-CPB keyword occurs (even when a CPB keyword
also occurs), else `CardiacWithCPB` when a CPB keyword occurs, and defaults
to `CardiacWithCPB`; in particular on `"CABG WITH CPB"` and
`"TAVR PROCEDURE"`. -/
theorem categorize_cardiac_no_cpb_precedence (t : String) :
    (no_cpb_keywords.any (fun kw => pyIn kw t) = true →
      categorize_cardiac t = ProcedureCategory.CARDIAC_WITHOUT_CPB)
    ∧ (no_cpb_keywords.any (fun kw => pyIn kw t) = false →
        cpb_keywords.any (fun kw => pyIn kw t) = true →
        categorize_cardiac t = ProcedureCategory.CARDIAC_WITH_CPB)
    ∧ (no_cpb_keywords.any (fun kw => pyIn kw t) = false →
        cpb_keywords.any (fun kw => pyIn kw t) = false →
        categorize_cardiac t = ProcedureCategory.CARDIAC_WITH_CPB)
    ∧ categorize_cardiac "CABG WITH CPB" = ProcedureCategory.CARDIAC_WITH_CPB
    ∧ categorize_cardiac "TAVR PROCEDURE" = ProcedureCategory.CARDIAC_WITHOUT_CPB := by
  refine ⟨fun h₁ => ?_, fun h₁ h₂ => ?_, fun h₁ h₂ => ?_, by decide, by decide⟩ <;>
    simp [categorize_cardiac, h₁, *]

/-- Witness for C8: the no-CPB branch fires on `"TAVR PROCEDURE"`. -/
theorem categorize_cardiac_no_cpb_precedence_witness :
    no_cpb_keywords.any (fun kw => pyIn kw "TAVR PROCEDURE") = true
    ∧ categorize_cardiac "TAVR PROCEDURE" = ProcedureCategory.CARDIAC_WITHOUT_CPB :=
  ⟨by decide, (categorize_cardiac_no_cpb_precedence "TAVR PROCEDURE").1 (by decide)⟩

/-- C9: whenever the accumulated category list is empty or exactly `[Other]`
and the upper-cased procedure text contains `"LABOR EPIDURAL"`, the returned
category is `VaginalDelivery`; in particular `categorize_procedure` on
procedure text `"Labor Epidural"` with no services returns
`VaginalDelivery`. -/
theorem labor_epidural_forces_vaginal_delivery
    (rules : List ProcedureRule) (procedure : Option String) (services : List String) :
    ((accumulatedCategories rules (procedureTextOf procedure) services = []
        ∨ accumulatedCategories rules (procedureTextOf procedure) services
            = [ProcedureCategory.OTHER]) →
      pyIn "LABOR EPIDURAL" (procedureTextOf procedure) = true →
      (categorize_procedure rules procedure services).1
        = ProcedureCategory.VAGINAL_DELIVERY)
    ∧ (categorize_procedure PROCEDURE_RULES (some "Labor Epidural") []).1
        = ProcedureCategory.VAGINAL_DELIVERY := by
  refine ⟨fun h₁ h₂ => ?_, by decide⟩
  simp only [categorize_procedure]
  rw [if_pos ⟨h₁, h₂⟩]

/-- Witness for C9: a rule table that accumulates exactly `[Other]` while the
procedure text contains `"LABOR EPIDURAL"`. -/
theorem labor_epidural_forces_vaginal_delivery_witness :
    accumulatedCategories [⟨["X"], "Other (procedure cat)", []⟩]
        (procedureTextOf (some "Labor Epidural")) ["X"] = [ProcedureCategory.OTHER]
    ∧ (categorize_procedure [⟨["X"], "Other (procedure cat)", []⟩]
        (some "Labor Epidural") ["X"]).1 = ProcedureCategory.VAGINAL_DELIVERY :=
  ⟨by decide,
    (labor_epidural_forces_vaginal_delivery [⟨["X"], "Other (procedure cat)", []⟩]
        (some "Labor Epidural") ["X"]).1 (Or.inr (by decide)) (by decide)⟩

/-- C2: with an ML predictor present whose label parses to a known category,
`ml_confidence ≥ 0.85` (boundary inclusive) returns the ML category with
method `ml_override` and confidence equal to the ML confidence; on
disagreement the alternative is the rule category and the override warning
citing the confidence and the rule category is appended. -/
theorem ml_high_confidence_override
    (rules : List ProcedureRule) (ml_threshold conf : ℚ) (label procedure_text : String)
    (services : List String) (mlCat : ProcedureCategory)
    (hparse : ProcedureCategory.fromString (pyStrip label) = some mlCat)
    (hconf : HIGH_CONFIDENCE_BOUND ≤ conf) :
    (classify rules (some ⟨label, conf⟩) ml_threshold procedure_text services).category = mlCat
    ∧ (classify rules (some ⟨label, conf⟩) ml_threshold procedure_text services).method
        = "ml_override"
    ∧ (classify rules (some ⟨label, conf⟩) ml_threshold procedure_text services).confidence
        = conf
    ∧ (mlCat ≠ (categorize_procedure rules (some procedure_text) services).1 →
        (classify rules (some ⟨label, conf⟩) ml_threshold procedure_text services).alternative
            = some (categorize_procedure rules (some procedure_text) services).1
          ∧ (classify rules (some ⟨label, conf⟩) ml_threshold procedure_text services).warnings
            = (categorize_procedure rules (some procedure_text) services).2
              ++ [mlOverrideWarning conf (categorize_procedure rules (some procedure_text) services).1])
    ∧ (mlCat = (categorize_procedure rules (some procedure_text) services).1 →
        (classify rules (some ⟨label, conf⟩) ml_threshold procedure_text services).alternative
            = none
          ∧ (classify rules (some ⟨label, conf⟩) ml_threshold procedure_text services).warnings
            = (categorize_procedure rules (some procedure_text) services).2) := by
  by_cases hne : mlCat = (categorize_procedure rules (some procedure_text) services).1 <;>
    simp_all [classify, if_pos hconf]

/-- Witness for C2 at confidence 0.9 with ML disagreeing with the rules. -/
theorem ml_high_confidence_override_witness :
    ProcedureCategory.fromString (pyStrip "Cardiac with CPB")
        = some ProcedureCategory.CARDIAC_WITH_CPB
    ∧ HIGH_CONFIDENCE_BOUND ≤ mkRat 9 10
    ∧ (classify [] (some ⟨"Cardiac with CPB", mkRat 9 10⟩) (mkRat 7 10) "" []).category
        = ProcedureCategory.CARDIAC_WITH_CPB
    ∧ (classify [] (some ⟨"Cardiac with CPB", mkRat 9 10⟩) (mkRat 7 10) "" []).method
        = "ml_override" := by
  have h := ml_high_confidence_override [] (mkRat 7 10) (mkRat 9 10)
    "Cardiac with CPB" "" [] ProcedureCategory.CARDIAC_WITH_CPB (by decide) (by decide)
  exact ⟨by decide, by decide, h.1, h.2.1⟩

/-- C3: with an ML predictor present whose label parses, confidences in
`[ml_threshold, 0.85)` return the rule category — method `rules_ml_agree`
with confidence 0.9 on agreement, method `rules_flagged` with
`alternative = ml_category` and an appended disagreement warning otherwise —
and confidences below `ml_threshold` (itself at most 0.85, as in the spec's
ordered cases and the 0.7 default) return the plain rules result. -/
theorem ml_medium_and_low_confidence_policy
    (rules : List ProcedureRule) (ml_threshold conf : ℚ) (label procedure_text : String)
    (services : List String) (mlCat : ProcedureCategory)
    (hparse : ProcedureCategory.fromString (pyStrip label) = some mlCat) :
    (ml_threshold ≤ conf → conf < HIGH_CONFIDENCE_BOUND →
      ((mlCat = (categorize_procedure rules (some procedure_text) services).1 →
          classify rules (some ⟨label, conf⟩) ml_threshold procedure_text services
            = ⟨(categorize_procedure rules (some procedure_text) services).1,
                "rules_ml_agree", mkRat 9 10, none,
                (categorize_procedure rules (some procedure_text) services).2⟩)
        ∧ (mlCat ≠ (categorize_procedure rules (some procedure_text) services).1 →
            classify rules (some ⟨label, conf⟩) ml_threshold procedure_text services
              = ⟨(categorize_procedure rules (some procedure_text) services).1,
                  "rules_flagged",
                  rulesConfidence (categorize_procedure rules (some procedure_text) services).2,
                  some mlCat,
                  (categorize_procedure rules (some procedure_text) services).2
                    ++ [mlSuggestsWarning mlCat conf]⟩)))
    ∧ (ml_threshold ≤ HIGH_CONFIDENCE_BOUND → conf < ml_threshold →
        classify rules (some ⟨label, conf⟩) ml_threshold procedure_text services
          = ⟨(categorize_procedure rules (some procedure_text) services).1, "rules",
              rulesConfidence (categorize_procedure rules (some procedure_text) services).2,
              none, (categorize_procedure rules (some procedure_text) services).2⟩) := by
  constructor
  · intro h₁ h₂
    constructor
    · intro heq
      simp_all [classify, if_neg (not_le.mpr h₂), if_pos h₁]
    · intro hne
      simp_all [classify, if_neg (not_le.mpr h₂), if_pos h₁]
  · intro hth hlt
    have h₈₅ : ¬ HIGH_CONFIDENCE_BOUND ≤ conf := not_le.mpr (lt_of_lt_of_le hlt hth)
    have hthle : ¬ ml_threshold ≤ conf := not_le.mpr hlt
    simp_all [classify, if_neg h₈₅, if_neg hthle]

/-- Witness for C3 at the inclusive lower boundary `conf = ml_threshold =
0.7`, ML agreeing with the rules. -/
theorem ml_medium_and_low_confidence_policy_witness :
    ProcedureCategory.fromString (pyStrip "Other (procedure cat)")
        = some ProcedureCategory.OTHER
    ∧ classify [] (some ⟨"Other (procedure cat)", mkRat 7 10⟩) (mkRat 7 10) "" []
        = ⟨ProcedureCategory.OTHER, "rules_ml_agree", mkRat 9 10, none, []⟩ := by
  have h := ((ml_medium_and_low_confidence_policy [] (mkRat 7 10) (mkRat 7 10)
      "Other (procedure cat)" "" [] ProcedureCategory.OTHER (by decide)).1
    (by decide) (by decide)).1 (by decide)
  exact ⟨by decide, h⟩

/-- C7: when the ML label does not parse into a known category, `classify`
returns normally with the rules-only result plus one appended warning naming
the invalid (stripped) label — i.e. exactly the no-predictor result except
for that warning. -/
theorem invalid_ml_label_falls_back_to_rules
    (rules : List ProcedureRule) (ml_threshold conf : ℚ) (label procedure_text : String)
    (services : List String)
    (hparse : ProcedureCategory.fromString (pyStrip label) = none) :
    classify rules none ml_threshold procedure_text services
      = ⟨(categorize_procedure rules (some procedure_text) services).1, "rules",
          rulesConfidence (categorize_procedure rules (some procedure_text) services).2,
          none, (categorize_procedure rules (some procedure_text) services).2⟩
    ∧ classify rules (some ⟨label, conf⟩) ml_threshold procedure_text services
      = { classify rules none ml_threshold procedure_text services with
          warnings := (classify rules none ml_threshold procedure_text services).warnings
            ++ [invalidCategoryWarning (pyStrip label)] } := by
  constructor
  · simp [classify]
  · simp [classify, hparse]

/-- Witness for C7 at the unparseable label `"garbage"`. -/
theorem invalid_ml_label_falls_back_to_rules_witness :
    ProcedureCategory.fromString (pyStrip "garbage") = none
    ∧ classify [] (some ⟨"garbage", mkRat 1 2⟩) (mkRat 7 10) "" []
      = { classify [] none (mkRat 7 10) "" [] with
          warnings := (classify [] none (mkRat 7 10) "" []).warnings
            ++ [invalidCategoryWarning (pyStrip "garbage")] } :=
  ⟨by decide,
    (invalid_ml_label_falls_back_to_rules [] (mkRat 7 10) (mkRat 1 2) "garbage" "" []
      (by decide)).2⟩

/-! ### List lemmas for the keep-last dedup and the upweighting -/

theorem mem_of_mem_dedupKeepLast {α : Type} (key : α → String) {l : List α} {a : α}
    (h : a ∈ dedupKeepLast key l) : a ∈ l := by
  induction l with
  | nil => simp [dedupKeepLast] at h
  | cons b t ih =>
    by_cases hc : ∃ x ∈ t, key x = key b
    · rw [dedupKeepLast, if_pos hc] at h
      exact List.mem_cons_of_mem _ (ih h)
    · rw [dedupKeepLast, if_neg hc] at h
      rcases List.mem_cons.mp h with rfl | h
      · exact List.mem_cons_self _ _
      · exact List.mem_cons_of_mem _ (ih h)

theorem nodup_keys_dedupKeepLast {α : Type} (key : α → String) (l : List α) :
    ((dedupKeepLast key l).map key).Nodup := by
  induction l with
  | nil => simp [dedupKeepLast]
  | cons b t ih =>
    by_cases hc : ∃ x ∈ t, key x = key b
    · rw [dedupKeepLast, if_pos hc]
      exact ih
    · rw [dedupKeepLast, if_neg hc]
      simp only [List.map_cons, List.nodup_cons]
      refine ⟨fun hmem => ?_, ih⟩
      rcases List.mem_map.mp hmem with ⟨x, hx, hkx⟩
      exact hc ⟨x, mem_of_mem_dedupKeepLast key hx, hkx⟩

theorem mem_dedupKeepLast_iff {α : Type} (key : α → String) (l : List α) (a : α) :
    a ∈ dedupKeepLast key l ↔
      ∃ l₁ l₂, l = l₁ ++ a :: l₂ ∧ ∀ b ∈ l₂, key b ≠ key a := by
  induction l with
  | nil => simp [dedupKeepLast]
  | cons c t ih =>
    by_cases hc : ∃ x ∈ t, key x = key c
    · rw [dedupKeepLast, if_pos hc, ih]
      constructor
      · rintro ⟨l₁, l₂, rfl, hl₂⟩
        exact ⟨c :: l₁, l₂, rfl, hl₂⟩
      · rintro ⟨l₁, l₂, heq, hl₂⟩
        cases l₁ with
        | nil =>
          simp only [List.nil_append] at heq
          rcases hc with ⟨x, hx, hkx⟩
          cases heq
          exact absurd (hkx.trans rfl) (hl₂ x hx)
        | cons d l₁ =>
          simp only [List.cons_append, List.cons.injEq] at heq
          obtain ⟨rfl, rfl⟩ := heq
          exact ⟨l₁, l₂, rfl, hl₂⟩
    · rw [dedupKeepLast, if_neg hc]
      simp only [List.mem_cons]
      constructor
      · rintro (rfl | h)
        · exact ⟨[], t, rfl, fun b hb hk => hc ⟨b, hb, hk⟩⟩
        · rcases ih.mp h with ⟨l₁, l₂, rfl, hl₂⟩
          exact ⟨c :: l₁, l₂, rfl, hl₂⟩
      · rintro ⟨l₁, l₂, heq, hl₂⟩
        cases l₁ with
        | nil =>
          simp only [List.nil_append, List.cons.injEq] at heq
          exact Or.inl heq.1.symm
        | cons d l₁ =>
          simp only [List.cons_append, List.cons.injEq] at heq
          obtain ⟨rfl, rfl⟩ := heq
          exact Or.inr (ih.mpr ⟨l₁, l₂, rfl, hl₂⟩)

theorem count_flatten_replicate {α : Type} [BEq α] (n : Nat) (l : List α) (x : α) :
    ((List.replicate n l).flatten.count x) = n * l.count x := by
  induction n with
  | zero => simp
  | succ n ih => simp [List.replicate_succ, List.count_append, ih, Nat.succ_mul, Nat.add_comm]

theorem length_flatten_replicate {α : Type} (n : Nat) (l : List α) :
    (List.replicate n l).flatten.length = n * l.length := by
  induction n with
  | zero => simp
  | succ n ih => simp [List.replicate_succ, ih, Nat.succ_mul, Nat.add_comm]

theorem dedupKeepLast_eq_self_of_nodup_keys {α : Type} (key : α → String) (l : List α)
    (h : (l.map key).Nodup) : dedupKeepLast key l = l := by
  induction l with
  | nil => rfl
  | cons b t ih =>
    simp only [List.map_cons, List.nodup_cons] at h
    rw [dedupKeepLast, if_neg, ih h.2]
    rintro ⟨x, hx, hkx⟩
    exact h.1 (List.mem_map.mpr ⟨x, hx, hkx⟩)

theorem count_filter_pos {α : Type} [BEq α] [LawfulBEq α] (p : α → Bool) (l : List α) (x : α)
    (hx : p x = true) : (l.filter p).count x = l.count x := by
  induction l with
  | nil => rfl
  | cons a t ih =>
    by_cases hpa : p a = true <;> by_cases hax : a = x <;>
      simp_all [List.filter_cons, List.count_cons]

theorem count_filter_neg {α : Type} [BEq α] [LawfulBEq α] (p : α → Bool) (l : List α) (x : α)
    (hx : p x = false) : (l.filter p).count x = 0 := by
  rw [List.count_eq_zero]
  intro h
  rcases List.mem_filter.mp h with ⟨-, hpx⟩
  simp [hx] at hpx

/-- C4: the retrain merge relabels every overridden seen row to the override
value, promotes every overridden unseen row into the training pool while the
non-overridden unseen rows form the remaining eval set, deduplicates the
concatenation by procedure key keeping the last occurrence, and then appends
`multiplier − 1 = 2` extra copies of every retained true-correction row
(default multiplier 3), leaving non-correction rows with a single copy. -/
theorem merge_override_frames_semantics (om : List (String × String))
    (seen unseen : List DataRow) :
    (∀ r ∈ seen, ∀ v, overrideLookup om r.key = some v →
        (relabelRow om r).1 = { r with label := v }
        ∧ relabelRow om r ∈ mergedPool om seen unseen)
    ∧ (∀ r ∈ unseen, (overrideLookup om r.key).isSome = true →
        relabelRow om r ∈ mergedPool om seen unseen)
    ∧ (∀ r, r ∈ (mergeOverrideFrames om seen unseen).2.1 ↔
        r ∈ unseen ∧ overrideLookup om r.key = none)
    ∧ ((dedupedPool om seen unseen).map (fun rb => rb.1.key)).Nodup
    ∧ (∀ x, x ∈ dedupedPool om seen unseen ↔
        ∃ l₁ l₂, mergedPool om seen unseen = l₁ ++ x :: l₂
          ∧ ∀ y ∈ l₂, y.1.key ≠ x.1.key)
    ∧ (∀ x ∈ dedupedPool om seen unseen,
        (x.2 = true →
          (upweightCorrections OVERRIDE_CORRECTION_MULTIPLIER
              (dedupedPool om seen unseen)).count x
            = 3 * (dedupedPool om seen unseen).count x)
        ∧ (x.2 = false →
          (upweightCorrections OVERRIDE_CORRECTION_MULTIPLIER
              (dedupedPool om seen unseen)).count x
            = (dedupedPool om seen unseen).count x))
    ∧ (mergeOverrideFrames om seen unseen).1.length
        = (dedupedPool om seen unseen).length
          + 2 * ((dedupedPool om seen unseen).filter (fun rb => rb.2)).length := by
  refine ⟨?_, ?_, ?_, nodup_keys_dedupKeepLast _ _,
    fun x => mem_dedupKeepLast_iff _ _ x, ?_, ?_⟩
  · intro r hr v hv
    refine ⟨by simp [relabelRow, hv], ?_⟩
    simp only [mergedPool, seenRelabeled]
    exact List.mem_append_left _ (List.mem_map_of_mem _ hr)
  · intro r hr hs
    simp only [mergedPool, promotedUnseen]
    exact List.mem_append_right _
      (List.mem_map_of_mem _ (List.mem_filter.mpr ⟨hr, hs⟩))
  · intro r
    simp [mergeOverrideFrames, remainingEval, List.mem_filter,
      Option.isNone_iff_eq_none]
  · intro x hx
    constructor
    · intro hflag
      have hmem : x ∈ (dedupedPool om seen unseen).filter (fun rb => rb.2) :=
        List.mem_filter.mpr ⟨hx, hflag⟩
      have hpos : 0 < ((dedupedPool om seen unseen).filter (fun rb => rb.2)).length :=
        List.length_pos_of_mem hmem
      rw [upweightCorrections, if_pos ⟨hpos, by decide⟩, List.count_append,
        count_flatten_replicate, count_filter_pos _ _ _ hflag]
      simp only [OVERRIDE_CORRECTION_MULTIPLIER]
      omega
    · intro hflag
      have hcnt : ((dedupedPool om seen unseen).filter (fun rb => rb.2)).count x = 0 :=
        count_filter_neg _ _ _ hflag
      rw [upweightCorrections]
      by_cases hpos :
          0 < ((dedupedPool om seen unseen).filter (fun rb => rb.2)).length
            ∧ 1 < OVERRIDE_CORRECTION_MULTIPLIER
      · rw [if_pos hpos, List.count_append, count_flatten_replicate, hcnt]
        simp
      · rw [if_neg hpos]
  · simp only [mergeOverrideFrames, List.length_map]
    by_cases hpos :
        0 < ((dedupedPool om seen unseen).filter (fun rb => rb.2)).length
          ∧ 1 < OVERRIDE_CORRECTION_MULTIPLIER
    · rw [upweightCorrections, if_pos hpos, List.length_append,
        length_flatten_replicate]
      simp only [OVERRIDE_CORRECTION_MULTIPLIER]
    · have h0 : ((dedupedPool om seen unseen).filter (fun rb => rb.2)).length = 0 := by
        rcases Nat.eq_zero_or_pos
            ((dedupedPool om seen unseen).filter (fun rb => rb.2)).length with h | h
        · exact h
        · exact absurd ⟨h, by decide⟩ hpos
      rw [upweightCorrections, if_neg hpos, h0]
      omega

/-- Witness for C4 on a one-row override instance. -/
theorem merge_override_frames_semantics_witness :
    overrideLookup [("K", "B")] "K" = some "B"
    ∧ (relabelRow [("K", "B")] ⟨"K", "A", []⟩).1 = (⟨"K", "B", []⟩ : DataRow)
    ∧ relabelRow [("K", "B")] ⟨"K", "A", []⟩
        ∈ mergedPool [("K", "B")] [⟨"K", "A", []⟩] [] := by
  have h := (merge_override_frames_semantics [("K", "B")] [⟨"K", "A", []⟩] []).1
    ⟨"K", "A", []⟩ (by decide) "B" (by decide)
  exact ⟨by decide, h.1, h.2⟩

/-- C6: retrain dataset preparation errors out before any output is produced
whenever an input file is missing, an output exists without `--force`, the
review-labels file lacks a required column, or the loaded override map is
empty. -/
theorem prepare_retrain_fails_fast (env : RetrainEnv) :
    ((env.seenFile = none ∨ env.unseenFile = none ∨ env.reviewFile = none) →
      ∃ e, prepareOverrideRetrainDatasets env = .error e)
    ∧ ((env.retrainOutExists = true ∨ env.evalOutExists = true) → env.force = false →
      ∃ e, prepareOverrideRetrainDatasets env = .error e)
    ∧ (∀ t, env.reviewFile = some t →
        ("procedure" ∉ t.columns ∨ "human_category" ∉ t.columns) →
        ∃ e, prepareOverrideRetrainDatasets env = .error e)
    ∧ (∀ t, env.reviewFile = some t → loadOverrideMap t = .ok [] →
        ∃ e, prepareOverrideRetrainDatasets env = .error e) := by
  obtain ⟨sf, uf, rf, ro, eo, fc⟩ := env
  cases sf with
  | none =>
    exact ⟨fun _ => ⟨_, rfl⟩, fun _ _ => ⟨_, rfl⟩, fun t ht _ => ⟨_, rfl⟩,
      fun t ht _ => ⟨_, rfl⟩⟩
  | some sfl =>
  cases uf with
  | none =>
    exact ⟨fun _ => ⟨_, rfl⟩, fun _ _ => ⟨_, rfl⟩, fun t ht _ => ⟨_, rfl⟩,
      fun t ht _ => ⟨_, rfl⟩⟩
  | some ufl =>
  cases rf with
  | none =>
    refine ⟨fun _ => ⟨_, rfl⟩, fun _ _ => ⟨_, rfl⟩, fun t ht _ => ?_, fun t ht _ => ?_⟩ <;>
      cases ht
  | some rft =>
  refine ⟨?_, ?_, ?_, ?_⟩
  · rintro (h | h | h) <;> exact absurd h (by simp)
  · intro hout hforce
    simp only at hout hforce
    refine ⟨"Output file(s) already exist. Use --force to overwrite.", ?_⟩
    simp only [prepareOverrideRetrainDatasets]
    rw [if_pos ⟨by simp [hforce], hout⟩]
  · intro t ht hcol
    injection ht with ht₁
    subst ht₁
    by_cases hc : ¬(fc = true) ∧ (ro = true ∨ eo = true)
    · exact ⟨_, by simp only [prepareOverrideRetrainDatasets]; rw [if_pos hc]⟩
    · have hload : loadOverrideMap rft
          = .error "Review labels must include columns: procedure, human_category" := by
        rcases hcol with h | h
        · rw [loadOverrideMap, if_neg (fun hpq => h hpq.1)]
        · rw [loadOverrideMap, if_neg (fun hpq => h hpq.2)]
      refine ⟨"Review labels must include columns: procedure, human_category", ?_⟩
      simp only [prepareOverrideRetrainDatasets]
      rw [if_neg hc, hload]
  · intro t ht hempty
    injection ht with ht₁
    subst ht₁
    by_cases hc : ¬(fc = true) ∧ (ro = true ∨ eo = true)
    · exact ⟨_, by simp only [prepareOverrideRetrainDatasets]; rw [if_pos hc]⟩
    · refine ⟨"No valid overrides found in review labels file.", ?_⟩
      simp only [prepareOverrideRetrainDatasets]
      rw [if_neg hc, hempty]
      rfl

/-- Witness for C6: all three inputs missing. -/
theorem prepare_retrain_fails_fast_witness :
    (⟨none, none, none, false, false, false⟩ : RetrainEnv).seenFile = none
    ∧ ∃ e, prepareOverrideRetrainDatasets ⟨none, none, none, false, false, false⟩
        = .error e :=
  ⟨rfl, (prepare_retrain_fails_fast ⟨none, none, none, false, false, false⟩).1
    (Or.inl rfl)⟩

/-! ### Review-session step lemmas -/

theorem apply_nonskip_below_ten (choice : String) (c : ReviewCase) (st : SessionState)
    (h₁ : choice ≠ "s") (sel : String)
    (hsel : resolveSelectedCategory choice c (recommendedCategory c) = some sel)
    (hlen : st.staged.length + 1 < 10) :
    (applyReviewChoice choice c st).1.staged = st.staged ++ [labelRecord c sel]
    ∧ (applyReviewChoice choice c st).1.outFile = st.outFile := by
  have hmod : (st.staged.length + 1) % 10 ≠ 0 := by
    rw [Nat.mod_eq_of_lt hlen]; omega
  by_cases ha : choice = "a" ∨ choice = " " <;>
    simp [applyReviewChoice, h₁, hsel, ha, markReviewed, autosaveIfNeeded, hmod,
      List.isEmpty_iff]

theorem apply_nonskip_at_ten (choice : String) (c : ReviewCase) (st : SessionState)
    (h₁ : choice ≠ "s") (sel : String)
    (hsel : resolveSelectedCategory choice c (recommendedCategory c) = some sel)
    (hlen : st.staged.length + 1 = 10) :
    (applyReviewChoice choice c st).1.staged = []
    ∧ (applyReviewChoice choice c st).1.outFile
        = some (saveReviewLabels st.outFile (st.staged ++ [labelRecord c sel])) := by
  have hmod : (st.staged.length + 1) % 10 = 0 := by rw [hlen]
  by_cases ha : choice = "a" ∨ choice = " " <;>
    simp [applyReviewChoice, h₁, hsel, ha, markReviewed, autosaveIfNeeded, hmod,
      List.isEmpty_iff]

theorem run_nonskip_no_autosave (steps : List (String × ReviewCase)) (st : SessionState)
    (happ : ∀ p ∈ steps, appliesNonSkip p)
    (hlen : st.staged.length + steps.length ≤ 9) :
    (runChoices steps st).staged = st.staged ++ steps.map stepRecord
    ∧ (runChoices steps st).outFile = st.outFile := by
  induction steps generalizing st with
  | nil => simp [runChoices]
  | cons p rest ih =>
    obtain ⟨h₁, h₂⟩ := happ p (List.mem_cons_self _ _)
    obtain ⟨sel, hsel⟩ := Option.isSome_iff_exists.mp h₂
    have hstep := apply_nonskip_below_ten p.1 p.2 st h₁ sel hsel
      (by simp at hlen; omega)
    have hrec : stepRecord p = labelRecord p.2 sel := by simp [stepRecord, hsel]
    have hrun : runChoices (p :: rest) st
        = runChoices rest (applyReviewChoice p.1 p.2 st).1 := rfl
    have hrest := ih (applyReviewChoice p.1 p.2 st).1
      (fun q hq => happ q (List.mem_cons_of_mem _ hq))
      (by rw [hstep.1]; simp at hlen ⊢; omega)
    rw [hrun]
    refine ⟨?_, hrest.2.trans hstep.2⟩
    rw [hrest.1, hstep.1]
    simp [hrec]

/-- C5: starting a fresh session against a not-yet-existing output file,
after exactly 10 applied (non-skip) decisions on cases with distinct
procedure texts the staged labels are flushed — appended and deduplicated by
procedure text keeping the last — so the output file holds exactly the 10
staged records and the staged buffer is empty, while no flush happens during
the first 9 applied decisions. -/
theorem review_autosave_after_ten (steps : List (String × ReviewCase))
    (hlen : steps.length = 10)
    (happ : ∀ p ∈ steps, appliesNonSkip p)
    (hnodup : (steps.map (fun p => p.2.procedure)).Nodup) :
    (runChoices steps freshSession).staged = []
    ∧ (runChoices steps freshSession).outFile = some (steps.map stepRecord)
    ∧ (steps.map stepRecord).length = 10
    ∧ (∀ k ≤ 9, (runChoices (steps.take k) freshSession).outFile = none
        ∧ (runChoices (steps.take k) freshSession).staged.length = k) := by
  have hdrop : (steps.drop 9).length = 1 := by rw [List.length_drop, hlen]
  obtain ⟨last, hlast⟩ := List.length_eq_one.mp hdrop
  have hsplit : steps = steps.take 9 ++ [last] := by
    rw [← hlast]
    exact (List.take_append_drop 9 steps).symm
  have h₉ : (steps.take 9).length = 9 := by
    rw [List.length_take, hlen]
    omega
  have hrun9 := run_nonskip_no_autosave (steps.take 9) freshSession
    (fun q hq => happ q (List.take_subset 9 steps hq))
    (by simp [freshSession, h₉])
  have hlast_mem : last ∈ steps := by
    rw [hsplit]
    exact List.mem_append_right _ (List.mem_cons_self _ _)
  obtain ⟨h₁, h₂⟩ := happ last hlast_mem
  obtain ⟨sel, hsel⟩ := Option.isSome_iff_exists.mp h₂
  have hrec : stepRecord last = labelRecord last.2 sel := by simp [stepRecord, hsel]
  have hstagelen : (runChoices (steps.take 9) freshSession).staged.length + 1 = 10 := by
    rw [hrun9.1]
    simp only [freshSession, List.nil_append, List.length_map, h₉]
  have hfinal : runChoices steps freshSession
      = (applyReviewChoice last.1 last.2 (runChoices (steps.take 9) freshSession)).1 := by
    conv_lhs => rw [hsplit]
    rw [runChoices, List.foldl_append]
    rfl
  have hstep := apply_nonskip_at_ten last.1 last.2
    (runChoices (steps.take 9) freshSession) h₁ sel hsel hstagelen
  have hstaged10 : (runChoices (steps.take 9) freshSession).staged
      ++ [labelRecord last.2 sel] = steps.map stepRecord := by
    rw [hrun9.1]
    simp only [freshSession, List.nil_append]
    rw [← hrec, show [stepRecord last] = List.map stepRecord [last] from rfl,
      ← List.map_append, ← hsplit]
  have hkeys : ((steps.map stepRecord).map (fun r => r.procedure)).Nodup := by
    rw [List.map_map]
    exact hnodup
  refine ⟨?_, ?_, by simp [hlen], ?_⟩
  · rw [hfinal, hstep.1]
  · rw [hfinal, hstep.2, hrun9.2, hstaged10]
    simp only [freshSession, saveReviewLabels, Option.getD_none, List.nil_append]
    rw [dedupKeepLast_eq_self_of_nodup_keys _ _ hkeys]
  · intro k hk
    have hrunk := run_nonskip_no_autosave (steps.take k) freshSession
      (fun q hq => happ q (List.take_subset k steps hq))
      (by
        simp only [freshSession, List.length_nil, List.length_take, hlen]
        omega)
    refine ⟨hrunk.2, ?_⟩
    rw [hrunk.1]
    simp only [freshSession, List.nil_append, List.length_map, List.length_take, hlen]
    omega

/-- Witness for C5: ten accepted decisions on ten distinct procedures. -/
theorem review_autosave_after_ten_witness :
    (∀ p ∈ (List.range 10).map (fun i => ("a", (⟨i, "P" ++ toString i,
        "Other (procedure cat)", mkRat 1 2, "Other (procedure cat)", false, []⟩
          : ReviewCase))), appliesNonSkip p)
    ∧ (runChoices ((List.range 10).map (fun i => ("a", (⟨i, "P" ++ toString i,
        "Other (procedure cat)", mkRat 1 2, "Other (procedure cat)", false, []⟩
          : ReviewCase)))) freshSession).staged = []
    ∧ ∃ L, (runChoices ((List.range 10).map (fun i => ("a", (⟨i, "P" ++ toString i,
        "Other (procedure cat)", mkRat 1 2, "Other (procedure cat)", false, []⟩
          : ReviewCase)))) freshSession).outFile = some L ∧ L.length = 10 := by
  have h := review_autosave_after_ten ((List.range 10).map (fun i => ("a",
      (⟨i, "P" ++ toString i, "Other (procedure cat)", mkRat 1 2,
        "Other (procedure cat)", false, []⟩ : ReviewCase))))
    (by decide) (by decide) (by decide)
  exact ⟨by decide, h.1, ⟨_, h.2.1, h.2.2.1⟩⟩

/-- C10: applying the skip choice increments the skipped counter and adds the
case index to the reviewed set and the persisted progress file, while leaving
the staged-label buffer and the review-labels output file unchanged; the
choice reports as applied. -/
theorem skip_preserves_labels_and_marks_reviewed (c : ReviewCase) (st : SessionState) :
    (applyReviewChoice "s" c st).1.skipped = st.skipped + 1
    ∧ (applyReviewChoice "s" c st).1.reviewedIndices
        = List.insert c.index st.reviewedIndices
    ∧ c.index ∈ (applyReviewChoice "s" c st).1.reviewedIndices
    ∧ (∃ l, (applyReviewChoice "s" c st).1.progressFile = some l ∧ c.index ∈ l)
    ∧ (applyReviewChoice "s" c st).1.staged = st.staged
    ∧ (applyReviewChoice "s" c st).1.outFile = st.outFile
    ∧ (applyReviewChoice "s" c st).2.1 = true := by
  have happly : applyReviewChoice "s" c st
      = (markReviewed c { st with skipped := st.skipped + 1 }, true,
          "Skipped case id " ++ toString c.index ++ ".") := by
    rw [applyReviewChoice, if_pos rfl]
  rw [happly]
  refine ⟨rfl, rfl, List.mem_insert_self _ _,
    ⟨(List.insert c.index st.reviewedIndices).insertionSort (· ≤ ·), rfl, ?_⟩,
    rfl, rfl, rfl⟩
  exact (List.perm_insertionSort _ _).mem_iff.mpr (List.mem_insert_self _ _)
